import Mathlib

/-!
Verification development for the lead-generation pipeline repository.

The repository has two Python source files:
* `mian.py` — a SQLite-backed pipeline (Lead Store, qualification pass,
  e-mail drafting, rate-limited SMTP dispatch).  It is embedded in the
  `Mian` namespace: the two SQL tables become lists of records, each
  mutating function becomes a pure function on a `Store` (wall-clock reads
  `now()` and the generated `uuid4` identifiers become explicit
  parameters, the dispatcher's wall clock becomes an explicit rational
  clock threaded through the loop, and an uncaught Python exception
  becomes an error flag / `Option` result).
* `cursor_dxb_video_agent.py` — a stdlib-only scoring agent.  Its
  `qualify` scorer and the regular-expression checks it relies on are
  embedded in the `Dxb` namespace; a `re.search` call is embedded as a
  decidable existence-of-a-match predicate for the concrete pattern.
-/

namespace Mian

/-- Python truthiness of an optional string (`None` and `""` are falsy). -/
def optTruthy : Option String → Bool
  | none => false
  | some s => !s.isEmpty

/-- The `Lead` dataclass of `mian.py` (field for field; `extras` is the
open string-to-value mapping, values kept as opaque strings; `rating` is a
`REAL`, embedded as `Rat`). -/
structure Lead where
  id : String
  source : String
  name : String
  category : Option String
  rating : Option Rat
  review_count : Option Int
  email : Option String
  phone : Option String
  website : Option String
  address : Option String
  city : Option String
  state : Option String
  country : Option String
  extras : List (String × String)
  stage : String := "NEW"
deriving DecidableEq

/-- A row of the `leads` table: the dataclass plus the two timestamp
columns of the schema. -/
structure LeadRow extends Lead where
  created_at : Nat
  updated_at : Nat
deriving DecidableEq

/-- A row of the `outreach` table. -/
structure OutreachRow where
  id : String
  lead_id : String
  subject : String
  body : String
  status : String
  sent_at : Option Nat
  message_id : Option String
deriving DecidableEq

/-- The SQLite database: the two tables, rows in insertion order. -/
structure Store where
  leads : List LeadRow
  outreach : List OutreachRow
deriving DecidableEq

/-- Embedding of `upsert_lead`: `INSERT ... ON CONFLICT(id) DO UPDATE`.  On conflict
every column except `id`, `stage` and `created_at` is overwritten from the
incoming lead and `updated_at` is bumped; otherwise a fresh row is
appended with `created_at = updated_at = t` (`now()` is the parameter
`t`). -/
def upsert_lead (t : Nat) (l : Lead) (s : Store) : Store :=
  if s.leads.any (fun r => r.id == l.id) then
    { s with leads := s.leads.map (fun r =>
        if r.id == l.id then
          { r with source := l.source, name := l.name, category := l.category,
                   rating := l.rating, review_count := l.review_count,
                   email := l.email, phone := l.phone, website := l.website,
                   address := l.address, city := l.city, state := l.state,
                   country := l.country, extras := l.extras, updated_at := t }
        else r) }
  else
    { s with leads := s.leads ++ [{ toLead := l, created_at := t, updated_at := t }] }

/-- Embedding of `set_stage`: `UPDATE leads SET stage=?, updated_at=? WHERE id=?`.
A plain SQL `UPDATE`: rows whose id matches are overwritten, an unknown id
matches zero rows and the statement succeeds silently. -/
def set_stage (t : Nat) (lid stage : String) (s : Store) : Store :=
  { s with leads := s.leads.map (fun r =>
      if r.id == lid then { r with stage := stage, updated_at := t } else r) }

/-- Modelled from the spec: `setStage(id, newStage)` "fails with
`NotFoundError` if id is unknown; otherwise overwrites stage and
updated_at".  This follows the spec's words (the code's `set_stage` above
is the authority); it exists only to be compared with the code. -/
def setStage_specModel (t : Nat) (lid stage : String) (s : Store) : Except String Store :=
  if s.leads.any (fun r => r.id == lid) then
    Except.ok (set_stage t lid stage s)
  else
    Except.error "NotFoundError"

/-- Embedding of `rule_based_score`: the pure scorer.  Mirrors the four additive checks
of the source; the `notes` dictionary is embedded as the list of its keys
in insertion order (its values just copy lead fields and are not observed
by any caller in the source). -/
def rule_based_score (l : Lead) (min_rating : Rat) (min_reviews : Int) : Int × List String :=
  let s0 : Int := 0
  let n0 : List String := []
  let (s1, n1) :=
    match l.rating with
    | some r => ((if min_rating ≤ r then s0 + 2 else s0), n0 ++ ["rating"])
    | none => (s0, n0)
  let (s2, n2) :=
    match l.review_count with
    | some rc => if min_reviews ≤ rc then (s1 + 1, n1 ++ ["reviews"]) else (s1, n1)
    | none => (s1, n1)
  let s3 := if optTruthy l.website then s2 + 1 else s2
  let s4 := if optTruthy l.email then s3 + 2 else s3
  (s4, n2)

/-- The loop body of `qualify_all`: the snapshot of `NEW` rows is walked
in order; each row is scored and `set_stage` is issued with `QUALIFIED`
(counting it) or `DISQUALIFIED`. -/
def qualifyLoop (t : Nat) (min_rating : Rat) (min_reviews min_score : Int) :
    List LeadRow → Store → Nat → Store × Nat
  | [], s, count => (s, count)
  | row :: rest, s, count =>
    let sc := (rule_based_score row.toLead min_rating min_reviews).1
    if min_score ≤ sc then
      qualifyLoop t min_rating min_reviews min_score rest
        (set_stage t row.id "QUALIFIED" s) (count + 1)
    else
      qualifyLoop t min_rating min_reviews min_score rest
        (set_stage t row.id "DISQUALIFIED" s) count

/-- Embedding of `qualify_all`: fetch the `stage='NEW'` snapshot, then resolve each
snapshot row; returns the updated store and the qualified count. -/
def qualify_all (t : Nat) (min_rating : Rat) (min_reviews min_score : Int) (s : Store) :
    Store × Nat :=
  qualifyLoop t min_rating min_reviews min_score
    (s.leads.filter (fun r => r.stage == "NEW")) s 0

/-- Embedding of `split_name`: whitespace-split the business name, return (first, last)
token, or ("","") when there are no tokens. -/
def split_name (biz_name : String) : String × String :=
  match (biz_name.splitOn " ").filter (fun p => !p.isEmpty) with
  | [] => ("", "")
  | p :: ps => (p, List.getLastD ps p)

/-- The string `EMAIL_TEMPLATE` of `mian.py`, verbatim (after its `.strip()`).  The
replacement-field braces are the literal braces of the Python string. -/
def EMAIL_TEMPLATE : String :=
  "Subject: \x7bsubject\x7d\n\nHi \x7bfirst_name or 'there'\x7d,\n\nI noticed \x7bobservation\x7d. \x7bvalue_prop\x7d.\n\nWe helped similar \x7bcategory or 'businesses'\x7d achieve \x7bsocial_proof\x7d. I'd be happy to send a quick \x7blead_magnet\x7d.\n\nWould a \x7bcta_duration\x7d-minute chat sometime this week work?\n\nBest,\n\x7bsender_name\x7d\n\x7borg_name\x7d\n\x7borg_address\x7d\nUnsubscribe: \x7bunsub_url\x7d"

/-- Keyword lookup for `str.format`. -/
def lookupEnv (env : List (String × String)) (k : String) : Option String :=
  (env.find? (fun p => p.1 == k)).map (fun p => p.2)

/-- Python's `str.format` for templates whose replacement fields are plain field
names (the only shape `EMAIL_TEMPLATE` uses): scan the template; inside a
field, accumulate the field name until the closing brace and look it up
among the passed keywords.  A field name that is not a passed keyword is
Python's `KeyError`, and an unterminated field is Python's `ValueError`;
both are embedded as `none`. -/
def renderFmt (env : List (String × String)) : List Char → Option (List Char) → Option (List Char)
  | [], none => some []
  | [], some _ => none
  | c :: rest, none =>
    if c = '\x7b' then renderFmt env rest (some [])
    else (renderFmt env rest none).map (fun cs => c :: cs)
  | c :: rest, some acc =>
    if c = '\x7d' then
      match lookupEnv env (String.mk acc.reverse) with
      | none => none
      | some v => (renderFmt env rest none).map (fun cs => v.data ++ cs)
    else renderFmt env rest (some (c :: acc))

/-- The module-level configuration of `mian.py` (the `os.environ` reads
at module load), passed explicitly.  Absent environment variables are
`none`. -/
structure Config where
  smtp_host : Option String := none
  smtp_port : Int := 587
  smtp_user : Option String := none
  smtp_pass : Option String := none
  smtp_from : Option String := none
  smtp_rate_per_min : Int := 20
  org_name : String := "Acme Growth"
  org_address : String := "123 Example St, City, ST 00000"
  unsub_url : String := "https://example.com/unsubscribe"
deriving DecidableEq

/-- Embedding of `generate_email_body`: build the subject and the keyword arguments of
the source, then apply `EMAIL_TEMPLATE.format(...)`.  The keyword list is
exactly the twelve keywords the source passes (the `None` values Python
would pass for a missing first name or category are embedded as the
string "None"; they are never read because rendering fails earlier).
Returns `none` when `.format` raises. -/
def generate_email_body (cfg : Config) (l : Lead) (offer : String)
    (lead_magnet : String := "free audit") (cta_duration : Int := 15) :
    Option (String × String) :=
  let first := (split_name l.name).1
  let subject := "Quick question about " ++ (if l.name.isEmpty then "your site" else l.name)
  let observation :=
    if (match l.rating with | some r => decide ((42 : Rat)/10 ≤ r) | none => false) then
      "your strong reviews"
    else "your presence in the area"
  let social_proof := "20–30% increase in qualified inquiries in 60 days"
  let sender_name :=
    match cfg.smtp_from with
    | some f => if f.isEmpty then cfg.org_name else ((f.splitOn "<").headD f).trim
    | none => cfg.org_name
  let env : List (String × String) :=
    [("subject", subject),
     ("first_name", if first.isEmpty then "None" else first),
     ("observation", observation),
     ("value_prop", offer),
     ("category", match l.category with | some c => c | none => "None"),
     ("social_proof", social_proof),
     ("lead_magnet", lead_magnet),
     ("cta_duration", toString cta_duration),
     ("sender_name", sender_name),
     ("org_name", cfg.org_name),
     ("org_address", cfg.org_address),
     ("unsub_url", cfg.unsub_url)]
  match renderFmt env EMAIL_TEMPLATE.data none with
  | none => none
  | some cs => some (subject, String.mk cs)

/-- The loop body of `draft_emails_for_stage`: walk the stage snapshot;
skip leads with a falsy email; otherwise render the message and
`INSERT OR REPLACE` a fresh-id `DRAFT` row (`uuid4` is the generator
`gen`, indexed by how many messages this run has drafted).  A `KeyError`
escaping `generate_email_body` aborts the command: the third component is
`false` and the store keeps the effects committed so far. -/
def draftLoop (cfg : Config) (gen : Nat → String) (offer : String) :
    List LeadRow → Store → Nat → Store × Nat × Bool
  | [], s, count => (s, count, true)
  | row :: rest, s, count =>
    if !optTruthy row.email then draftLoop cfg gen offer rest s count
    else
      match generate_email_body cfg row.toLead offer with
      | none => (s, count, false)
      | some sb =>
        let msg : OutreachRow :=
          { id := gen count, lead_id := row.id, subject := sb.1, body := sb.2,
            status := "DRAFT", sent_at := none, message_id := none }
        let s' := { s with outreach :=
          (s.outreach.filter (fun o => !(o.id == msg.id))) ++ [msg] }
        draftLoop cfg gen offer rest s' (count + 1)

/-- Embedding of `draft_emails_for_stage`: fetch the stage snapshot, then draft. -/
def draft_emails_for_stage (cfg : Config) (gen : Nat → String) (stage offer : String)
    (s : Store) : Store × Nat × Bool :=
  draftLoop cfg gen offer (s.leads.filter (fun r => r.stage == stage)) s 0

/-- The abstract SMTP transport: `(destination, subject, body)` to
`(success, provider message id)`; a raised transport exception is the
`(false, none)` outcome (the source catches it and returns exactly
that). -/
def Transport : Type := Option String → String → String → Bool × Option String

/-- The source's guard in `send_email`: all four SMTP env vars truthy. -/
def smtpConfigured (cfg : Config) : Bool :=
  optTruthy cfg.smtp_host && optTruthy cfg.smtp_user &&
    optTruthy cfg.smtp_pass && optTruthy cfg.smtp_from

/-- Embedding of `send_email`: with missing SMTP configuration it logs and returns
`(False, None)` without touching the transport; otherwise the transport
decides the outcome. -/
def send_email (cfg : Config) (transport : Transport)
    (to_addr : Option String) (subject body : String) : Bool × Option String :=
  if smtpConfigured cfg then transport to_addr subject body else (false, none)

/-- One row of the dispatcher's snapshot query
`SELECT o.id, o.subject, o.body, l.email, l.id FROM outreach o JOIN leads l ...
WHERE o.status='DRAFT'`. -/
structure SendRow where
  oid : String
  subject : String
  body : String
  email : Option String
  lid : String
deriving DecidableEq

/-- The dispatcher's snapshot: `DRAFT` outreach rows joined (inner join)
with their lead, in outreach insertion order. -/
def draftSnapshot (s : Store) : List SendRow :=
  s.outreach.filterMap (fun o =>
    if o.status == "DRAFT" then
      (s.leads.find? (fun l => l.id == o.lead_id)).map (fun l =>
        { oid := o.id, subject := o.subject, body := o.body, email := l.email, lid := l.id })
    else none)

/-- One dispatch attempt of the instrumented loop: the wall-clock instants
at which `send_email` was invoked and at which it returned, and its
outcome. -/
structure Attempt where
  start : Rat
  ret : Rat
  ok : Bool
deriving DecidableEq

/-- The spacing `interval = 60.0 / max(1, SMTP_RATE_PER_MIN)`. -/
def interval (cfg : Config) : Rat :=
  60 / ((max 1 cfg.smtp_rate_per_min : Int) : Rat)

/-- The outcome of one loop iteration: dry-run simulates success,
otherwise `send_email` is invoked. -/
def rowOutcome (cfg : Config) (transport : Transport) (dry : Bool) (r : SendRow) :
    Bool × Option String :=
  if dry then (true, none) else send_email cfg transport r.email r.subject r.body

/-- The outreach-table overwrite the dispatch loop performs after
attempting snapshot row with message id `oid` and outcome `res`:
`UPDATE outreach SET status=?, sent_at=?, message_id=? WHERE id=?`. -/
def applyMsgResult (t : Nat) (oid : String) (res : Bool × Option String)
    (o : OutreachRow) : OutreachRow :=
  if o.id == oid then
    { o with status := if res.1 then "SENT" else "ERROR",
             sent_at := some t, message_id := res.2 }
  else o

/-- The per-lead effect of one dispatched snapshot row (stage becomes
`CONTACTED` on success, nothing otherwise); used to characterise the
loop's effect on the lead table. -/
def applyLeadResult (t : Nat) (lid : String) (ok : Bool) (r : LeadRow) : LeadRow :=
  if ok && r.id == lid then { r with stage := "CONTACTED", updated_at := t } else r

/-- The loop body of `send_all`, instrumented with an explicit wall clock:
`clock` is the current time, `last` is `last_sent`, `gap i` is how much
time elapses between the previous attempt returning and iteration `i`
reaching the rate-limit check, `dur i` is how long the send call itself
takes, and `log` records every real (non-dry) attempt.  For each snapshot
row: rate-limit sleep if needed, attempt, overwrite the outreach row's
status/sent_at/message_id, and on success only set the owning lead's
stage to `CONTACTED`; the loop never aborts. -/
def sendLoop (cfg : Config) (transport : Transport) (dry : Bool) (t : Nat)
    (gap dur : Nat → Rat) :
    List SendRow → Store → Nat → Rat → Rat → Nat → List Attempt →
      Store × Nat × List Attempt
  | [], s, sent, _clock, _last, _i, log => (s, sent, log)
  | r :: rest, s, sent, clock, last, i, log =>
    let res := rowOutcome cfg transport dry r
    let c1 := clock + gap i
    let delta := c1 - last
    let start := if delta < interval cfg then c1 + (interval cfg - delta) else c1
    let ret := start + dur i
    let clock' := if dry then clock else ret
    let last' := if dry then last else ret
    let log' := if dry then log else log ++ [{ start := start, ret := ret, ok := res.1 }]
    let s' := { s with outreach := s.outreach.map (applyMsgResult t r.oid res) }
    let s'' := if res.1 then set_stage t r.lid "CONTACTED" s' else s'
    sendLoop cfg transport dry t gap dur rest s''
      (if res.1 then sent + 1 else sent) clock' last' (i + 1) log'

/-- Embedding of `send_all`: take the `DRAFT` snapshot once, then run the dispatch
loop (`last_sent` starts at `0.0`; `t0` is the wall clock when the run
starts; `t` is the `now()` used for the row timestamps). -/
def send_all (cfg : Config) (transport : Transport) (dry : Bool) (t : Nat)
    (t0 : Rat) (gap dur : Nat → Rat) (s : Store) : Store × Nat × List Attempt :=
  sendLoop cfg transport dry t gap dur (draftSnapshot s) s 0 t0 0 0 []

/-- Number of non-terminal (`DRAFT` or `SENDING`) outreach messages a
given lead currently owns. -/
def nonTerminalCount (s : Store) (lid : String) : Nat :=
  (s.outreach.filter (fun o =>
    o.lead_id == lid && (o.status == "DRAFT" || o.status == "SENDING"))).length

/-- The store states reachable by running the program's mutating
operations (in any order, with any parameters) from the fresh database
the module creates. -/
inductive Reachable : Store → Prop
  | init : Reachable { leads := [], outreach := [] }
  | upsert (t : Nat) (l : Lead) {s : Store} :
      Reachable s → Reachable (upsert_lead t l s)
  | stageSet (t : Nat) (lid st : String) {s : Store} :
      Reachable s → Reachable (set_stage t lid st s)
  | qualify (t : Nat) (mr : Rat) (mv ms : Int) {s : Store} :
      Reachable s → Reachable (qualify_all t mr mv ms s).1
  | draft (cfg : Config) (gen : Nat → String) (stage offer : String) {s : Store} :
      Reachable s → Reachable (draft_emails_for_stage cfg gen stage offer s).1
  | send (cfg : Config) (tr : Transport) (dry : Bool) (t : Nat) (t0 : Rat)
      (gap dur : Nat → Rat) {s : Store} :
      Reachable s → Reachable (send_all cfg tr dry t t0 gap dur s).1

/-- Minimum spacing between consecutive logged attempts: each attempt
starts at least `iv` after the previous one returned. -/
def Spaced (iv : Rat) : List Attempt → Prop
  | [] => True
  | [_] => True
  | a :: b :: rest => a.ret + iv ≤ b.start ∧ Spaced iv (b :: rest)

/-- The lead-table update `set_stage` performs for one scored snapshot
row during a qualification pass, as a function of that row (used to
characterise the pass). -/
def qualifyStep (t : Nat) (min_rating : Rat) (min_reviews min_score : Int)
    (row : LeadRow) (r : LeadRow) : LeadRow :=
  if r.id == row.id then
    { r with
      stage := if min_score ≤ (rule_based_score row.toLead min_rating min_reviews).1 then
                 "QUALIFIED" else "DISQUALIFIED",
      updated_at := t }
  else r

/-- The per-`NEW`-row resolution `qualify_all` performs, as a single map
over the lead table (used to state what a completed pass does). -/
def qualifyResolve (t : Nat) (min_rating : Rat) (min_reviews min_score : Int)
    (r : LeadRow) : LeadRow :=
  if r.stage = "NEW" then
    { r with
      stage := if min_score ≤ (rule_based_score r.toLead min_rating min_reviews).1 then
                 "QUALIFIED" else "DISQUALIFIED",
      updated_at := t }
  else r

end Mian

namespace Dxb

/-- The `Lead` dataclass of `cursor_dxb_video_agent.py`. -/
structure Lead where
  id : String
  name : String
  niche : String
  contact : String
  platform : String
  score : Int := 0
  notes : String := ""
deriving DecidableEq

/-- The `NICHE_WEIGHTS` table of the source, as an association list. -/
def NICHE_WEIGHTS : List (String × Int) :=
  [("real estate", 3), ("restaurant", 2), ("gym", 2), ("clinic", 3),
   ("auto", 2), ("salon", 2), ("cafe", 2)]

/-- The `PLATFORM_WEIGHTS` table of the source. -/
def PLATFORM_WEIGHTS : List (String × Int) :=
  [("email", 3), ("whatsapp", 3), ("instagram", 2), ("linkedin", 2)]

/-- Python's `dict.get(key, default)`. -/
def dictGet (d : List (String × Int)) (k : String) (dflt : Int) : Int :=
  match d.find? (fun p => p.1 == k) with
  | some p => p.2
  | none => dflt

/-- The character class `[A-Za-z0-9._%+-]` of `EMAIL_RE`. -/
def isEmailLocalChar (c : Char) : Bool :=
  c.isAlpha || c.isDigit || c == '.' || c == '_' || c == '%' || c == '+' || c == '-'

/-- The character class `[A-Za-z0-9.-]` of `EMAIL_RE`. -/
def isEmailDomainChar (c : Char) : Bool :=
  c.isAlpha || c.isDigit || c == '.' || c == '-'

/-- Truthiness of `EMAIL_RE.search(s)` for
`EMAIL_RE = [A-Za-z0-9._%+-]+@[A-Za-z0-9.-]+\.[A-Za-z]{2,}`: a match
exists iff some `@` is preceded by a local-class character and followed by
at least one domain-class character, a dot, and at least two letters
(with only domain-class characters between the `@` and that dot). -/
def EMAIL_RE_search (s : String) : Bool :=
  let cs := s.data
  let n := cs.length
  (List.range n).any (fun a =>
    cs.getD a ' ' == '@' && decide (1 ≤ a) && isEmailLocalChar (cs.getD (a - 1) ' ') &&
    (List.range n).any (fun b =>
      decide (a + 2 ≤ b) && cs.getD b ' ' == '.' &&
      (List.range n).all (fun k =>
        !(decide (a + 1 ≤ k) && decide (k ≤ b - 1)) || isEmailDomainChar (cs.getD k ' ')) &&
      decide (b + 2 < n) && (cs.getD (b + 1) ' ').isAlpha && (cs.getD (b + 2) ' ').isAlpha))

/-- The character class `[\d\s-]` of `PHONE_RE` (ASCII whitespace). -/
def isPhoneMidChar (c : Char) : Bool :=
  c.isDigit || c == ' ' || c == '\t' || c == '\n' || c == '\r' ||
    c == '\x0b' || c == '\x0c' || c == '-'

/-- Truthiness of `PHONE_RE.search(s)` for
`PHONE_RE = \+?\d[\d\s-]{6,}\d`: a match exists iff some digit is followed,
at least seven positions later, by another digit with only `[\d\s-]`
characters in between (the optional leading `+` never affects existence). -/
def PHONE_RE_search (s : String) : Bool :=
  let cs := s.data
  let n := cs.length
  (List.range n).any (fun i =>
    (cs.getD i ' ').isDigit &&
    (List.range n).any (fun j =>
      decide (i + 7 ≤ j) && (cs.getD j ' ').isDigit &&
      (List.range n).all (fun k =>
        !(decide (i + 1 ≤ k) && decide (k + 1 ≤ j)) || isPhoneMidChar (cs.getD k ' '))))

/-- The character class `[A-Za-z0-9_.]` of `IG_RE`. -/
def isIgChar (c : Char) : Bool :=
  c.isAlpha || c.isDigit || c == '_' || c == '.'

/-- Whole-string body check for `IG_RE` (after the anchors): an optional
leading `@` then 2 to 30 class characters covering everything. -/
def igCore (cs : List Char) : Bool :=
  let body := match cs with | '@' :: rest => rest | other => other
  decide (2 ≤ body.length) && decide (body.length ≤ 30) && body.all isIgChar

/-- Truthiness of `IG_RE.search(s)` for `IG_RE = ^@?[A-Za-z0-9_.]{2,30}$`:
with both anchors, the whole string must match (Python's `$` also matches
just before one trailing newline). -/
def IG_RE_search (s : String) : Bool :=
  igCore s.data ||
    (match s.data.getLast? with
     | some c => c == '\n' && igCore s.data.dropLast
     | none => false)

/-- Python's `"linkedin.com" in contact` substring test. -/
def substrIn (pat s : String) : Bool :=
  s.data.tails.any (fun t => pat.data.isPrefixOf t)

/-- The source's visual-niche set membership test. -/
def visualNiche (n : String) : Bool :=
  n == "real estate" || n == "restaurant" || n == "clinic" || n == "auto" ||
    n == "salon" || n == "gym" || n == "cafe"

/-- Embedding of `qualify(lead, city)`: niche weight (default 1) plus platform weight
(default 1), plus the per-platform contact-shape bonus, plus the
visual-niche bonus; the fired checks are recorded in `notes` in source
order.  (`city` is accepted and unused, as in the source.) -/
def qualify (l : Lead) (city : String) : Lead :=
  let s1 : Int := dictGet NICHE_WEIGHTS l.niche 1 + dictGet PLATFORM_WEIGHTS l.platform 1
  let s2 := s1 + (if l.platform == "email" && EMAIL_RE_search l.contact then 2 else 0)
  let s3 := s2 + (if l.platform == "whatsapp" && PHONE_RE_search l.contact then 2 else 0)
  let s4 := s3 + (if l.platform == "instagram" && IG_RE_search l.contact then 1 else 0)
  let s5 := s4 + (if l.platform == "linkedin" && substrIn "linkedin.com" l.contact then 1 else 0)
  let s6 := s5 + (if visualNiche l.niche then 1 else 0)
  let notes :=
    (if l.platform == "email" && EMAIL_RE_search l.contact then ["valid_email"] else []) ++
    (if l.platform == "whatsapp" && PHONE_RE_search l.contact then ["valid_phone"] else []) ++
    (if l.platform == "instagram" && IG_RE_search l.contact then ["handle_ok"] else []) ++
    (if l.platform == "linkedin" && substrIn "linkedin.com" l.contact then ["linkedin_url"] else []) ++
    (if visualNiche l.niche then ["visual_niche"] else [])
  { l with score := s6, notes := String.intercalate "," notes }

/-- The first embedded lead of the source
(`{"Name": "Al Noor Realty", "Niche": "real estate",
"Contact": "info@alnoorrealty.ae", "Platform": "email"}` after the
`embedded_leads()` normalisation, with some generated id). -/
def alNoorLead : Lead :=
  { id := "lead-1", name := "Al Noor Realty", niche := "real estate",
    contact := "info@alnoorrealty.ae", platform := "email" }

end Dxb

namespace Fx

/-- A raw SerpAPI sighting of the same business, as `cmd_search` turns it
into a `Lead`: every field is determined by the raw record except the
freshly generated uuid `id`. -/
def rawLead (id : String) : Mian.Lead :=
  { id := id, source := "serpapi", name := "Al Noor Realty",
    category := some "real estate", rating := some (44/10),
    review_count := some 12, email := some "info@alnoorrealty.ae",
    phone := none, website := some "https://alnoor.ae",
    address := some "Dubai Marina", city := none, state := none,
    country := none, extras := [("raw", "item")] }

/-- A store holding one lead, id "a". -/
def s5 : Mian.Store :=
  { leads := [{ toLead := rawLead "a", created_at := 1, updated_at := 1 }],
    outreach := [] }

/-- A store with one `NEW` lead and one `CONTACTED` lead. -/
def s6 : Mian.Store :=
  { leads := [{ toLead := rawLead "a", created_at := 1, updated_at := 1 },
              { toLead := { rawLead "b" with stage := "CONTACTED" },
                created_at := 1, updated_at := 1 }],
    outreach := [] }

/-- A configuration with no SMTP transport configured (every SMTP env var
absent, as `os.environ.get` yields). -/
def cfgNone : Mian.Config := {}

/-- A fully configured SMTP environment. -/
def cfgFull : Mian.Config :=
  { smtp_host := some "smtp.x", smtp_user := some "u",
    smtp_pass := some "p", smtp_from := some "Me <me@x.ae>" }

/-- A transport that always succeeds. -/
def trAlways : Mian.Transport := fun _ _ _ => (true, some "pid")

/-- A transport that fails exactly for destination `b@x.ae`. -/
def trFailB : Mian.Transport := fun d _ _ => (!(d == some "b@x.ae"), some "pid")

/-- A store with one `QUALIFIED` lead owning one `DRAFT` message. -/
def s4 : Mian.Store :=
  { leads := [{ toLead := { rawLead "L1" with stage := "QUALIFIED" },
                created_at := 1, updated_at := 1 }],
    outreach := [{ id := "M1", lead_id := "L1", subject := "s", body := "b",
                   status := "DRAFT", sent_at := none, message_id := none }] }

/-- A store with two `QUALIFIED` leads, each owning one `DRAFT` message. -/
def s7 : Mian.Store :=
  { leads := [{ toLead := { rawLead "L1" with stage := "QUALIFIED", email := some "a@x.ae" },
                created_at := 1, updated_at := 1 },
              { toLead := { rawLead "L2" with stage := "QUALIFIED", email := some "b@x.ae" },
                created_at := 1, updated_at := 1 }],
    outreach := [{ id := "M1", lead_id := "L1", subject := "s1", body := "b1",
                   status := "DRAFT", sent_at := none, message_id := none },
                 { id := "M2", lead_id := "L2", subject := "s2", body := "b2",
                   status := "DRAFT", sent_at := none, message_id := none }] }

/-- The first dispatcher snapshot row of `s7`. -/
def row7 : Mian.SendRow :=
  { oid := "M1", subject := "s1", body := "b1", email := some "a@x.ae", lid := "L1" }

end Fx

/- ------------------------------------------------------------------ -/
/- Shared helper lemmas                                               -/
/- ------------------------------------------------------------------ -/

theorem map_eq_self_of {α} (l : List α) (f : α → α) (h : ∀ a ∈ l, f a = a) :
    l.map f = l := by
  induction l with
  | nil => rfl
  | cons a as ih => simp only [List.map_cons, h a (by simp), ih fun x hx => h x (by simp [hx])]

theorem any_eq_false_of {α} (l : List α) (p : α → Bool) (h : ∀ a ∈ l, p a = false) :
    l.any p = false := by
  induction l with
  | nil => rfl
  | cons a as ih =>
    simp only [List.any_cons, h a (by simp), ih fun x hx => h x (by simp [hx]),
      Bool.or_self]

theorem filter_eq_nil_of {α} (l : List α) (p : α → Bool) (h : ∀ a ∈ l, p a = false) :
    l.filter p = [] := by
  induction l with
  | nil => rfl
  | cons a as ih => simp only [List.filter_cons, h a (by simp), Bool.false_eq_true,
      if_false, ih fun x hx => h x (by simp [hx])]

/-- Helper: `generate_email_body` never succeeds: `EMAIL_TEMPLATE` contains the
replacement field `first_name or 'there'`, which is not among the passed
keywords, so `str.format` raises `KeyError` on every call. -/
theorem gen_body_none (cfg : Mian.Config) (l : Mian.Lead) (offer lead_magnet : String)
    (cta_duration : Int) :
    Mian.generate_email_body cfg l offer lead_magnet cta_duration = none := rfl

/- ------------------------------------------------------------------ -/
/- Claim theorems                                                     -/
/- ------------------------------------------------------------------ -/

/-- Claim C9: for the lead with name "Al Noor Realty", niche
"real estate", contact "info@alnoorrealty.ae", platform "email", under
the configured weights (real estate 3, email 3, valid-email bonus 2,
visual-niche bonus 1), `qualify` returns exactly 9. -/
theorem alnoor_score_nine : (Dxb.qualify Dxb.alNoorLead "Dubai, UAE").score = 9 := by
  decide

/-- Claim C10: every lead scores at least 2, because an unknown niche and
an unknown platform each contribute the default weight 1 before any
bonus. -/
theorem qualify_score_ge_two (l : Dxb.Lead) (city : String) :
    2 ≤ (Dxb.qualify l city).score := by
  have h1 : 1 ≤ Dxb.dictGet Dxb.NICHE_WEIGHTS l.niche 1 := by
    cases h : Dxb.NICHE_WEIGHTS.find? (fun p => p.1 == l.niche) with
    | none => simp [Dxb.dictGet, h]
    | some p =>
      have hp := List.mem_of_find?_eq_some h
      have h23 : p.2 = 3 ∨ p.2 = 2 := by
        simp only [Dxb.NICHE_WEIGHTS, List.mem_cons, List.not_mem_nil, or_false] at hp
        rcases hp with rfl | rfl | rfl | rfl | rfl | rfl | rfl <;> simp
      simp only [Dxb.dictGet, h]
      omega
  have h2 : 1 ≤ Dxb.dictGet Dxb.PLATFORM_WEIGHTS l.platform 1 := by
    cases h : Dxb.PLATFORM_WEIGHTS.find? (fun p => p.1 == l.platform) with
    | none => simp [Dxb.dictGet, h]
    | some p =>
      have hp := List.mem_of_find?_eq_some h
      have h23 : p.2 = 3 ∨ p.2 = 2 := by
        simp only [Dxb.PLATFORM_WEIGHTS, List.mem_cons, List.not_mem_nil, or_false] at hp
        rcases hp with rfl | rfl | rfl | rfl <;> simp
      simp only [Dxb.dictGet, h]
      omega
  simp only [Dxb.qualify]
  split_ifs <;> omega

/-- Claim C3 (code bug): the template renderer is not total — it fails for
every well-formed lead.  `EMAIL_TEMPLATE` contains the fields
`first_name or 'there'` and `category or 'businesses'` (f-string syntax,
invalid for `str.format`), so `generate_email_body` raises `KeyError`
unconditionally instead of rendering fallback text. -/
theorem generate_email_body_never_succeeds (cfg : Mian.Config) (l : Mian.Lead)
    (offer lead_magnet : String) (cta_duration : Int) :
    Mian.generate_email_body cfg l offer lead_magnet cta_duration = none := rfl

/-- Claim C5 counterexample: `set_stage` on an id unknown to the store
returns successfully with the store unchanged — it does not fail — while
the spec-modelled `setStage` demands a `NotFoundError` there. -/
theorem set_stage_unknown_id_cex :
    Mian.set_stage 7 "missing" "QUALIFIED" Fx.s5 = Fx.s5 ∧
    Mian.setStage_specModel 7 "missing" "QUALIFIED" Fx.s5 =
      Except.error "NotFoundError" := by
  constructor
  · rfl
  · rfl

/-- Claim C5, amended: `set_stage` on an unknown id is a silent no-op (the
`UPDATE` matches zero rows, no error is signalled, the store is
unchanged); on a known id it overwrites that lead's stage and updated_at,
rows with other ids are untouched, and a subsequent read observes the new
stage. -/
theorem set_stage_behavior (t : Nat) (lid st : String) (s : Mian.Store) :
    ((∀ r ∈ s.leads, r.id ≠ lid) → Mian.set_stage t lid st s = s) ∧
    (∀ r ∈ (Mian.set_stage t lid st s).leads, r.id = lid →
      r.stage = st ∧ r.updated_at = t) ∧
    (∀ r ∈ (Mian.set_stage t lid st s).leads, r.id ≠ lid → r ∈ s.leads) ∧
    (∀ r ∈ s.leads, r.id = lid →
      ({ r with stage := st, updated_at := t } : Mian.LeadRow) ∈
        (Mian.set_stage t lid st s).leads) := by
  refine ⟨?_, ?_, ?_, ?_⟩
  · intro h
    have hm : s.leads.map (fun r =>
        if r.id == lid then { r with stage := st, updated_at := t } else r) = s.leads :=
      map_eq_self_of _ _ (fun r hr => by simp [h r hr])
    simp only [Mian.set_stage, hm]
  · intro r hr hid
    simp only [Mian.set_stage] at hr
    obtain ⟨x, hx, hfx⟩ := List.mem_map.mp hr
    by_cases hb : x.id = lid
    · simp only [hb, beq_self_eq_true, if_true] at hfx
      subst hfx; exact ⟨rfl, rfl⟩
    · simp only [beq_eq_false_iff_ne.mpr hb, Bool.false_eq_true, if_false] at hfx
      subst hfx; exact absurd hid hb
  · intro r hr hid
    simp only [Mian.set_stage] at hr
    obtain ⟨x, hx, hfx⟩ := List.mem_map.mp hr
    by_cases hb : x.id = lid
    · simp only [hb, beq_self_eq_true, if_true] at hfx
      subst hfx; simp at hid
    · simp only [beq_eq_false_iff_ne.mpr hb, Bool.false_eq_true, if_false] at hfx
      subst hfx; exact hx
  · intro r hr hid
    simp only [Mian.set_stage]
    refine List.mem_map.mpr ⟨r, hr, ?_⟩
    simp [hid]

/-- Claim C5 witness: the amended theorem applied to a concrete store and
an id it does not contain. -/
theorem set_stage_behavior_witness :
    Mian.set_stage 8 "nope" "CONTACTED" Fx.s5 = Fx.s5 :=
  (set_stage_behavior 8 "nope" "CONTACTED" Fx.s5).1 (by decide)

/-- Claim C1 counterexample: the same raw record sighted twice is upserted
under two freshly generated ids (`uuid4` per sighting in `cmd_search`),
and the store then holds two leads — the upsert is not keyed on the
(name, contact, source) natural identity. -/
theorem upsert_two_sightings_two_rows :
    ((Mian.upsert_lead 2 (Fx.rawLead "id-2")
        (Mian.upsert_lead 1 (Fx.rawLead "id-1")
          { leads := [], outreach := [] })).leads.length) = 2 := by
  decide

/-- Claim C1, amended: the upsert is idempotent on the stored `id`, not on
natural identity.  Upserting the same `Lead` value (same id) twice into a
store not containing that id yields exactly one stored row for it: the
second upsert overwrites the mutable columns and bumps `updated_at`,
while `id`, `stage` and `created_at` keep their first-upsert values, and
all other rows are untouched. -/
theorem upsert_same_lead_idempotent (t1 t2 : Nat) (l : Mian.Lead) (s : Mian.Store)
    (h : ∀ r ∈ s.leads, r.id ≠ l.id) :
    Mian.upsert_lead t2 l (Mian.upsert_lead t1 l s) =
      { s with leads := s.leads ++
          [{ toLead := l, created_at := t1, updated_at := t2 }] } ∧
    ((Mian.upsert_lead t2 l (Mian.upsert_lead t1 l s)).leads.filter
        (fun r => r.id == l.id)).length = 1 := by
  have h1 : s.leads.any (fun r => r.id == l.id) = false :=
    any_eq_false_of _ _ (fun r hr => by simp [h r hr])
  have hrow : (Mian.upsert_lead t1 l s) =
      { s with leads := s.leads ++ [{ toLead := l, created_at := t1, updated_at := t1 }] } := by
    simp only [Mian.upsert_lead, h1, Bool.false_eq_true, if_false]
  have h2 : ((s.leads ++ [({ toLead := l, created_at := t1, updated_at := t1 } : Mian.LeadRow)]).any
      (fun r => r.id == l.id)) = true := by
    simp [List.any_append]
  have hmain : Mian.upsert_lead t2 l (Mian.upsert_lead t1 l s) =
      { s with leads := s.leads ++
          [{ toLead := l, created_at := t1, updated_at := t2 }] } := by
    rw [hrow]
    simp only [Mian.upsert_lead, h2, if_true, List.map_append]
    rw [map_eq_self_of _ _ (fun r hr => by simp [h r hr])]
    simp
  refine ⟨hmain, ?_⟩
  rw [hmain]
  simp only [List.filter_append]
  rw [filter_eq_nil_of _ _ (fun r hr => by simp [h r hr])]
  simp

/-- Claim C1 witness: the amended idempotence at a concrete lead and the
empty store. -/
theorem upsert_same_lead_idempotent_witness :
    Mian.upsert_lead 4 (Fx.rawLead "w")
        (Mian.upsert_lead 3 (Fx.rawLead "w") { leads := [], outreach := [] }) =
      { leads := [{ toLead := Fx.rawLead "w", created_at := 3, updated_at := 4 }],
        outreach := [] } :=
  (upsert_same_lead_idempotent 3 4 (Fx.rawLead "w")
    { leads := [], outreach := [] } (by simp)).1

/- ------------------------------------------------------------------ -/
/- Qualification pass (C6)                                            -/
/- ------------------------------------------------------------------ -/

theorem map_congr_mem {α β} (l : List α) (f g : α → β) (h : ∀ a ∈ l, f a = g a) :
    l.map f = l.map g := by
  induction l with
  | nil => rfl
  | cons a as ih => simp only [List.map_cons, h a (by simp), ih fun x hx => h x (by simp [hx])]

theorem foldl_map_comm {α β} (f : β → α → α) :
    ∀ (rows : List β) (ls : List α),
      rows.foldl (fun acc row => acc.map (f row)) ls =
        ls.map (fun x => rows.foldl (fun y row => f row y) x) := by
  intro rows
  induction rows with
  | nil => intro ls; simp
  | cons row rest ih =>
    intro ls
    simp only [List.foldl_cons, ih, List.map_map]
    rfl

theorem qualifyLoop_store (t : Nat) (mr : Rat) (mv ms : Int) :
    ∀ (rows : List Mian.LeadRow) (s : Mian.Store) (c : Nat),
      (Mian.qualifyLoop t mr mv ms rows s c).1 =
        { s with leads :=
            rows.foldl (fun ls row => ls.map (Mian.qualifyStep t mr mv ms row)) s.leads } := by
  intro rows
  induction rows with
  | nil => intro s c; rfl
  | cons row rest ih =>
    intro s c
    simp only [Mian.qualifyLoop, List.foldl_cons]
    by_cases hsc : ms ≤ (Mian.rule_based_score row.toLead mr mv).1
    · rw [if_pos hsc, ih]
      have hfn : (fun r => if r.id == row.id then
            ({ r with stage := "QUALIFIED", updated_at := t } : Mian.LeadRow) else r) =
          Mian.qualifyStep t mr mv ms row := by
        funext r
        simp [Mian.qualifyStep, hsc]
      simp only [Mian.set_stage, hfn]
    · rw [if_neg hsc, ih]
      have hfn : (fun r => if r.id == row.id then
            ({ r with stage := "DISQUALIFIED", updated_at := t } : Mian.LeadRow) else r) =
          Mian.qualifyStep t mr mv ms row := by
        funext r
        simp [Mian.qualifyStep, hsc]
      simp only [Mian.set_stage, hfn]

theorem qualifyFold_no_match (t : Nat) (mr : Rat) (mv ms : Int) :
    ∀ (rows : List Mian.LeadRow) (x : Mian.LeadRow),
      (∀ row ∈ rows, row.id ≠ x.id) →
      rows.foldl (fun y row => Mian.qualifyStep t mr mv ms row y) x = x := by
  intro rows
  induction rows with
  | nil => intro x _; rfl
  | cons row rest ih =>
    intro x h
    have hne : x.id ≠ row.id := fun hh => h row (by simp) hh.symm
    simp only [List.foldl_cons]
    have hstep : Mian.qualifyStep t mr mv ms row x = x := by
      simp [Mian.qualifyStep, hne]
    rw [hstep]
    exact ih x fun r hr => h r (by simp [hr])

theorem qualifyFold_resolves (t : Nat) (mr : Rat) (mv ms : Int)
    (ls : List Mian.LeadRow) (hN : (ls.map (fun r => r.id)).Nodup)
    (x : Mian.LeadRow) (hx : x ∈ ls) :
    (ls.filter (fun r => r.stage == "NEW")).foldl
        (fun y row => Mian.qualifyStep t mr mv ms row y) x =
      Mian.qualifyResolve t mr mv ms x := by
  by_cases hstage : x.stage = "NEW"
  · have hxf : x ∈ ls.filter (fun r => r.stage == "NEW") :=
      List.mem_filter.mpr ⟨hx, by simp [hstage]⟩
    obtain ⟨l1, l2, hdec⟩ := List.append_of_mem hxf
    have hNf : ((ls.filter (fun r => r.stage == "NEW")).map (fun r => r.id)).Nodup :=
      ((List.filter_sublist ls).map (fun r => r.id)).nodup hN
    rw [hdec] at hNf
    have hNf' : (l1.map (fun r => r.id) ++ x.id :: l2.map (fun r => r.id)).Nodup := by
      simpa using hNf
    rw [hdec, List.foldl_append, List.foldl_cons]
    have h1 : ∀ row ∈ l1, row.id ≠ x.id := by
      intro row hrow hid
      have hmem : x.id ∈ l1.map (fun r => r.id) := List.mem_map.mpr ⟨row, hrow, hid⟩
      exact (List.disjoint_of_nodup_append hNf') hmem (List.mem_cons_self _ _)
    have h2 : ∀ row ∈ l2, row.id ≠ x.id := by
      intro row hrow hid
      have hmem : x.id ∈ l2.map (fun r => r.id) := List.mem_map.mpr ⟨row, hrow, hid⟩
      have hc := (List.nodup_append.mp hNf').2.1
      exact (List.nodup_cons.mp hc).1 hmem
    rw [qualifyFold_no_match t mr mv ms l1 x h1]
    have hxx : Mian.qualifyStep t mr mv ms x x = Mian.qualifyResolve t mr mv ms x := by
      simp [Mian.qualifyStep, Mian.qualifyResolve, hstage]
    rw [hxx]
    apply qualifyFold_no_match
    intro row hrow
    have hid : (Mian.qualifyResolve t mr mv ms x).id = x.id := by
      simp [Mian.qualifyResolve, hstage]
    rw [hid]
    exact h2 row hrow
  · have hnm : ∀ row ∈ ls.filter (fun r => r.stage == "NEW"), row.id ≠ x.id := by
      intro row hrow hid
      have hm := List.mem_filter.mp hrow
      have heq : row = x := List.inj_on_of_nodup_map hN hm.1 hx hid
      rw [heq] at hm
      exact hstage (by simpa using hm.2)
    rw [qualifyFold_no_match t mr mv ms _ x hnm]
    simp [Mian.qualifyResolve, hstage]

/-- Claim C6: with distinct lead ids, a completed qualification pass
resolves exactly the `NEW` leads — each becomes `QUALIFIED` when its
score reaches `min_score` and `DISQUALIFIED` otherwise, every other row
is untouched — no lead remains `NEW` afterwards, and re-running the pass
(with any parameters) is a no-op. -/
theorem qualify_all_resolves (t : Nat) (mr : Rat) (mv ms : Int) (s : Mian.Store)
    (hN : (s.leads.map (fun r => r.id)).Nodup) :
    (Mian.qualify_all t mr mv ms s).1.leads =
        s.leads.map (Mian.qualifyResolve t mr mv ms) ∧
    (∀ r ∈ (Mian.qualify_all t mr mv ms s).1.leads, r.stage ≠ "NEW") ∧
    (∀ (t2 : Nat) (mr2 : Rat) (mv2 ms2 : Int),
      (Mian.qualify_all t2 mr2 mv2 ms2 (Mian.qualify_all t mr mv ms s).1).1 =
        (Mian.qualify_all t mr mv ms s).1) := by
  have hchar : (Mian.qualify_all t mr mv ms s).1.leads =
      s.leads.map (Mian.qualifyResolve t mr mv ms) := by
    unfold Mian.qualify_all
    rw [qualifyLoop_store, foldl_map_comm]
    exact map_congr_mem _ _ _ fun x hx => qualifyFold_resolves t mr mv ms s.leads hN x hx
  have hnonew : ∀ r ∈ (Mian.qualify_all t mr mv ms s).1.leads, r.stage ≠ "NEW" := by
    intro r hr
    rw [hchar] at hr
    obtain ⟨x, hx, rfl⟩ := List.mem_map.mp hr
    by_cases hst : x.stage = "NEW"
    · simp only [Mian.qualifyResolve, hst, if_true]
      split <;> decide
    · simp [Mian.qualifyResolve, hst]
  refine ⟨hchar, hnonew, ?_⟩
  intro t2 mr2 mv2 ms2
  have hfilter : ((Mian.qualify_all t mr mv ms s).1.leads.filter
      (fun r => r.stage == "NEW")) = [] :=
    filter_eq_nil_of _ _ fun r hr => by simp [hnonew r hr]
  conv_lhs => rw [Mian.qualify_all, hfilter]
  rfl

/-- Claim C6 witness: the pass applied to a concrete two-lead store. -/
theorem qualify_all_resolves_witness :
    (Mian.qualify_all 9 (38/10) 5 3 Fx.s6).1.leads =
      Fx.s6.leads.map (Mian.qualifyResolve 9 (38/10) 5 3) :=
  (qualify_all_resolves 9 (38/10) 5 3 Fx.s6 (by decide)).1

/- ------------------------------------------------------------------ -/
/- Message invariant (C2)                                             -/
/- ------------------------------------------------------------------ -/

theorem upsert_lead_outreach (t : Nat) (l : Mian.Lead) (s : Mian.Store) :
    (Mian.upsert_lead t l s).outreach = s.outreach := by
  unfold Mian.upsert_lead
  split <;> rfl

theorem set_stage_outreach (t : Nat) (lid st : String) (s : Mian.Store) :
    (Mian.set_stage t lid st s).outreach = s.outreach := rfl

theorem qualify_all_outreach (t : Nat) (mr : Rat) (mv ms : Int) (s : Mian.Store) :
    (Mian.qualify_all t mr mv ms s).1.outreach = s.outreach := by
  unfold Mian.qualify_all
  rw [qualifyLoop_store]

theorem draftLoop_store (cfg : Mian.Config) (gen : Nat → String) (offer : String) :
    ∀ (rows : List Mian.LeadRow) (s : Mian.Store) (c : Nat),
      (Mian.draftLoop cfg gen offer rows s c).1 = s := by
  intro rows
  induction rows with
  | nil => intro s c; rfl
  | cons row rest ih =>
    intro s c
    simp only [Mian.draftLoop, gen_body_none]
    split
    · exact ih s c
    · rfl

theorem draft_emails_store (cfg : Mian.Config) (gen : Nat → String)
    (stage offer : String) (s : Mian.Store) :
    (Mian.draft_emails_for_stage cfg gen stage offer s).1 = s :=
  draftLoop_store cfg gen offer _ s 0

theorem send_all_outreach_nil (cfg : Mian.Config) (tr : Mian.Transport) (dry : Bool)
    (t : Nat) (t0 : Rat) (gap dur : Nat → Rat) (s : Mian.Store)
    (h : s.outreach = []) : (Mian.send_all cfg tr dry t t0 gap dur s).1 = s := by
  unfold Mian.send_all Mian.draftSnapshot
  rw [h]
  rfl

theorem reachable_outreach_nil (s : Mian.Store) (h : Mian.Reachable s) :
    s.outreach = [] := by
  induction h with
  | init => rfl
  | upsert t l h ih => rw [upsert_lead_outreach]; exact ih
  | stageSet t lid st h ih => rw [set_stage_outreach]; exact ih
  | qualify t mr mv ms h ih => rw [qualify_all_outreach]; exact ih
  | draft cfg gen stage offer h ih => rw [draft_emails_store]; exact ih
  | send cfg tr dry t t0 gap dur h ih =>
    rw [send_all_outreach_nil _ _ _ _ _ _ _ _ ih]; exact ih

/-- Claim C2: in every reachable store state every lead has at most one
non-terminal (DRAFT or SENDING) outreach message, and repeated draft runs
never accumulate in-flight messages.  (The bound holds vacuously here:
`generate_email_body` fails on every drafted lead — the C3 result — so the
draft step never commits a message and the outreach table stays empty; the
source contains no other guard against duplicate in-flight drafts.) -/
theorem at_most_one_nonterminal (s : Mian.Store) (h : Mian.Reachable s) (lid : String) :
    Mian.nonTerminalCount s lid ≤ 1 := by
  unfold Mian.nonTerminalCount
  rw [reachable_outreach_nil s h]
  simp

/-- Claim C2 witness: the invariant at a concrete reachable state (an
upsert of a lead with a valid email followed by a draft run for its
stage). -/
theorem at_most_one_nonterminal_witness :
    Mian.nonTerminalCount
      (Mian.draft_emails_for_stage Fx.cfgNone (fun _ => "m") "NEW" "offer"
        (Mian.upsert_lead 1 (Fx.rawLead "a") { leads := [], outreach := [] })).1 "a" ≤ 1 :=
  at_most_one_nonterminal _
    (Mian.Reachable.draft Fx.cfgNone (fun _ => "m") "NEW" "offer"
      (Mian.Reachable.upsert 1 (Fx.rawLead "a") Mian.Reachable.init)) "a"

/- ------------------------------------------------------------------ -/
/- Dispatcher (C4, C7, C8)                                            -/
/- ------------------------------------------------------------------ -/

theorem applyLeadResult_false (t : Nat) (lid : String) (x : Mian.LeadRow) :
    Mian.applyLeadResult t lid false x = x := rfl

theorem sendLoop_char (cfg : Mian.Config) (tr : Mian.Transport) (dry : Bool) (t : Nat)
    (gap dur : Nat → Rat) :
    ∀ (rows : List Mian.SendRow) (s : Mian.Store) (sent : Nat) (clock last : Rat)
      (i : Nat) (log : List Mian.Attempt),
      (Mian.sendLoop cfg tr dry t gap dur rows s sent clock last i log).1 =
        { leads := s.leads.map (fun x =>
            rows.foldl (fun y r =>
              Mian.applyLeadResult t r.lid (Mian.rowOutcome cfg tr dry r).1 y) x),
          outreach := s.outreach.map (fun o =>
            rows.foldl (fun y r =>
              Mian.applyMsgResult t r.oid (Mian.rowOutcome cfg tr dry r) y) o) } := by
  intro rows
  induction rows with
  | nil =>
    intro s sent clock last i log
    simp [Mian.sendLoop]
  | cons r rest ih =>
    intro s sent clock last i log
    simp only [Mian.sendLoop]
    rw [ih]
    cases hres : (Mian.rowOutcome cfg tr dry r).1 with
    | false =>
      simp only [hres, Bool.false_eq_true, if_false, List.foldl_cons, List.map_map,
        applyLeadResult_false]
      rfl
    | true =>
      simp only [hres, if_true, List.foldl_cons, Mian.set_stage, List.map_map]
      rfl

theorem sendLoop_count (cfg : Mian.Config) (tr : Mian.Transport) (dry : Bool) (t : Nat)
    (gap dur : Nat → Rat) :
    ∀ (rows : List Mian.SendRow) (s : Mian.Store) (sent : Nat) (clock last : Rat)
      (i : Nat) (log : List Mian.Attempt),
      (Mian.sendLoop cfg tr dry t gap dur rows s sent clock last i log).2.1 =
        sent + List.countP (fun r => (Mian.rowOutcome cfg tr dry r).1) rows := by
  intro rows
  induction rows with
  | nil => intro s sent clock last i log; simp [Mian.sendLoop]
  | cons r rest ih =>
    intro s sent clock last i log
    simp only [Mian.sendLoop]
    rw [ih]
    cases hres : (Mian.rowOutcome cfg tr dry r).1 with
    | false => simp [List.countP_cons, hres]
    | true => simp [List.countP_cons, hres]; omega

theorem sendLoop_loglen (cfg : Mian.Config) (tr : Mian.Transport) (dry : Bool) (t : Nat)
    (gap dur : Nat → Rat) :
    ∀ (rows : List Mian.SendRow) (s : Mian.Store) (sent : Nat) (clock last : Rat)
      (i : Nat) (log : List Mian.Attempt),
      (Mian.sendLoop cfg tr dry t gap dur rows s sent clock last i log).2.2.length =
        log.length + (if dry then 0 else rows.length) := by
  intro rows
  induction rows with
  | nil => intro s sent clock last i log; simp [Mian.sendLoop]
  | cons r rest ih =>
    intro s sent clock last i log
    simp only [Mian.sendLoop]
    rw [ih]
    by_cases hdry : dry = true
    · simp [hdry]
    · simp only [Bool.not_eq_true] at hdry
      simp only [hdry, Bool.false_eq_true, if_false, List.length_append, List.length_cons,
        List.length_nil]
      omega

theorem foldMsg_no_match (t : Nat) (f : Mian.SendRow → Bool × Option String) :
    ∀ (rows : List Mian.SendRow) (o : Mian.OutreachRow),
      (∀ r ∈ rows, r.oid ≠ o.id) →
      rows.foldl (fun y r => Mian.applyMsgResult t r.oid (f r) y) o = o := by
  intro rows
  induction rows with
  | nil => intro o _; rfl
  | cons r rest ih =>
    intro o h
    have hne : o.id ≠ r.oid := fun hh => h r (by simp) hh.symm
    simp only [List.foldl_cons]
    have hstep : Mian.applyMsgResult t r.oid (f r) o = o := by
      simp [Mian.applyMsgResult, hne]
    rw [hstep]
    exact ih o fun x hx => h x (by simp [hx])

theorem foldMsg_eq (t : Nat) (f : Mian.SendRow → Bool × Option String)
    (rows : List Mian.SendRow) (row : Mian.SendRow) (hrow : row ∈ rows)
    (hN : (rows.map (fun r => r.oid)).Nodup) (o : Mian.OutreachRow)
    (ho : o.id = row.oid) :
    rows.foldl (fun y r => Mian.applyMsgResult t r.oid (f r) y) o =
      { o with status := if (f row).1 then "SENT" else "ERROR",
               sent_at := some t, message_id := (f row).2 } := by
  obtain ⟨l1, l2, hdec⟩ := List.append_of_mem hrow
  subst hdec
  have hNf' : (l1.map (fun r => r.oid) ++ row.oid :: l2.map (fun r => r.oid)).Nodup := by
    simpa using hN
  have h1 : ∀ x ∈ l1, x.oid ≠ o.id := by
    intro x hx hid
    have hmem : row.oid ∈ l1.map (fun r => r.oid) :=
      List.mem_map.mpr ⟨x, hx, by rw [hid, ho]⟩
    exact (List.disjoint_of_nodup_append hNf') hmem (List.mem_cons_self _ _)
  have h2 : ∀ x ∈ l2, x.oid ≠ o.id := by
    intro x hx hid
    have hmem : row.oid ∈ l2.map (fun r => r.oid) :=
      List.mem_map.mpr ⟨x, hx, by rw [hid, ho]⟩
    have hc := (List.nodup_append.mp hNf').2.1
    exact (List.nodup_cons.mp hc).1 hmem
  rw [List.foldl_append, List.foldl_cons, foldMsg_no_match t f l1 o h1]
  have hstep : Mian.applyMsgResult t row.oid (f row) o =
      { o with status := if (f row).1 then "SENT" else "ERROR",
               sent_at := some t, message_id := (f row).2 } := by
    simp [Mian.applyMsgResult, ho]
  rw [hstep]
  apply foldMsg_no_match
  intro x hx hid
  exact h2 x hx (by simpa using hid)

theorem foldLead_no_match (t : Nat) (f : Mian.SendRow → Bool) :
    ∀ (rows : List Mian.SendRow) (x : Mian.LeadRow),
      (∀ r ∈ rows, r.lid ≠ x.id) →
      rows.foldl (fun y r => Mian.applyLeadResult t r.lid (f r) y) x = x := by
  intro rows
  induction rows with
  | nil => intro x _; rfl
  | cons r rest ih =>
    intro x h
    have hne : x.id ≠ r.lid := fun hh => h r (by simp) hh.symm
    simp only [List.foldl_cons]
    have hstep : Mian.applyLeadResult t r.lid (f r) x = x := by
      simp [Mian.applyLeadResult, hne]
    rw [hstep]
    exact ih x fun y hy => h y (by simp [hy])

theorem foldLead_eq (t : Nat) (f : Mian.SendRow → Bool)
    (rows : List Mian.SendRow) (row : Mian.SendRow) (hrow : row ∈ rows)
    (hN : (rows.map (fun r => r.lid)).Nodup) (x : Mian.LeadRow)
    (hx : x.id = row.lid) :
    rows.foldl (fun y r => Mian.applyLeadResult t r.lid (f r) y) x =
      (if f row then ({ x with stage := "CONTACTED", updated_at := t } : Mian.LeadRow)
       else x) := by
  obtain ⟨l1, l2, hdec⟩ := List.append_of_mem hrow
  subst hdec
  have hNf' : (l1.map (fun r => r.lid) ++ row.lid :: l2.map (fun r => r.lid)).Nodup := by
    simpa using hN
  have h1 : ∀ r ∈ l1, r.lid ≠ x.id := by
    intro r hr hid
    have hmem : row.lid ∈ l1.map (fun r => r.lid) :=
      List.mem_map.mpr ⟨r, hr, by rw [hid, hx]⟩
    exact (List.disjoint_of_nodup_append hNf') hmem (List.mem_cons_self _ _)
  have h2 : ∀ r ∈ l2, r.lid ≠ x.id := by
    intro r hr hid
    have hmem : row.lid ∈ l2.map (fun r => r.lid) :=
      List.mem_map.mpr ⟨r, hr, by rw [hid, hx]⟩
    have hc := (List.nodup_append.mp hNf').2.1
    exact (List.nodup_cons.mp hc).1 hmem
  rw [List.foldl_append, List.foldl_cons, foldLead_no_match t f l1 x h1]
  have hstep : Mian.applyLeadResult t row.lid (f row) x =
      (if f row then ({ x with stage := "CONTACTED", updated_at := t } : Mian.LeadRow)
       else x) := by
    cases hfr : f row <;> simp [Mian.applyLeadResult, hx, hfr]
  rw [hstep]
  apply foldLead_no_match
  intro r hr hid
  apply h2 r hr
  cases hfr : f row <;> simp only [hfr, Bool.false_eq_true, if_false, if_true] at hid <;>
    simpa using hid

theorem rowOutcome_unconfigured (cfg : Mian.Config) (tr : Mian.Transport)
    (hcfg : Mian.smtpConfigured cfg = false) (r : Mian.SendRow) :
    Mian.rowOutcome cfg tr false r = (false, none) := by
  simp [Mian.rowOutcome, Mian.send_email, hcfg]

theorem foldLead_all_false (t : Nat) (g : Mian.SendRow → Bool) (hg : ∀ r, g r = false) :
    ∀ (rows : List Mian.SendRow) (x : Mian.LeadRow),
      rows.foldl (fun y r => Mian.applyLeadResult t r.lid (g r) y) x = x := by
  intro rows
  induction rows with
  | nil => intro x; rfl
  | cons r rest ih =>
    intro x
    simp only [List.foldl_cons, hg r, applyLeadResult_false]
    exact ih x

theorem foldMsg_all_fail (t : Nat) :
    ∀ (rows : List Mian.SendRow) (o : Mian.OutreachRow),
      rows.foldl (fun y r => Mian.applyMsgResult t r.oid (false, none) y) o =
        (if rows.any (fun r => r.oid == o.id) then
          { o with status := "ERROR", sent_at := some t, message_id := none } else o) := by
  intro rows
  induction rows with
  | nil => intro o; rfl
  | cons r rest ih =>
    intro o
    simp only [List.foldl_cons, List.any_cons]
    by_cases hm : o.id = r.oid
    · have hb : (r.oid == o.id) = true := by simp [hm]
      have hstep : Mian.applyMsgResult t r.oid (false, none) o =
          { o with status := "ERROR", sent_at := some t, message_id := none } := by
        simp [Mian.applyMsgResult, hm]
      rw [hstep, ih]
      simp only [hb, Bool.true_or, if_true]
      split <;> rfl
    · have hb : (r.oid == o.id) = false := by
        simp only [beq_eq_false_iff_ne, ne_eq]
        exact fun hh => hm hh.symm
      have hstep : Mian.applyMsgResult t r.oid (false, none) o = o := by
        have hne : o.id ≠ r.oid := hm
        simp [Mian.applyMsgResult, hne]
      rw [hstep, ih]
      simp only [hb, Bool.false_or]

/-- Claim C4 counterexample: with no SMTP transport configured and one
DRAFT message, the non-dry dispatcher run does not halt before attempting:
it attempts the message (one logged attempt) and overwrites its status to
ERROR — the DRAFT messages are not left unchanged. -/
theorem send_all_missing_config_cex :
    ((Mian.send_all Fx.cfgNone Fx.trAlways false 5 0 (fun _ => 0) (fun _ => 0)
        Fx.s4).1.outreach.map (fun o => o.status)) = ["ERROR"] ∧
    (Mian.send_all Fx.cfgNone Fx.trAlways false 5 0 (fun _ => 0) (fun _ => 0)
        Fx.s4).2.2.length = 1 := by
  constructor
  · rfl
  · rfl

/-- Claim C4, amended: with no send transport configured (and dry-run
off), `send_all` does not halt and raises no configuration error: it walks
the entire DRAFT snapshot, every attempt fails inside `send_email` without
reaching a transport, every snapshot message is overwritten to ERROR
(sent_at set, no provider id), the lead table is unchanged, and 0 sent
messages are reported. -/
theorem send_all_missing_config_behavior (cfg : Mian.Config) (tr : Mian.Transport)
    (t : Nat) (t0 : Rat) (gap dur : Nat → Rat) (s : Mian.Store)
    (hcfg : Mian.smtpConfigured cfg = false) :
    (Mian.send_all cfg tr false t t0 gap dur s).1.leads = s.leads ∧
    (Mian.send_all cfg tr false t t0 gap dur s).1.outreach =
      s.outreach.map (fun o =>
        if (Mian.draftSnapshot s).any (fun r => r.oid == o.id) then
          { o with status := "ERROR", sent_at := some t, message_id := none }
        else o) ∧
    (Mian.send_all cfg tr false t t0 gap dur s).2.1 = 0 ∧
    (Mian.send_all cfg tr false t t0 gap dur s).2.2.length =
      (Mian.draftSnapshot s).length := by
  refine ⟨?_, ?_, ?_, ?_⟩
  · unfold Mian.send_all
    rw [sendLoop_char]
    apply map_eq_self_of
    intro x _
    exact foldLead_all_false t _
      (fun r => by rw [rowOutcome_unconfigured cfg tr hcfg r]) _ x
  · unfold Mian.send_all
    rw [sendLoop_char]
    have hfn : (fun (y : Mian.OutreachRow) (r : Mian.SendRow) =>
        Mian.applyMsgResult t r.oid (Mian.rowOutcome cfg tr false r) y) =
        (fun y r => Mian.applyMsgResult t r.oid (false, none) y) := by
      funext y r
      rw [rowOutcome_unconfigured cfg tr hcfg r]
    rw [hfn]
    exact map_congr_mem _ _ _ fun o _ => foldMsg_all_fail t (Mian.draftSnapshot s) o
  · unfold Mian.send_all
    rw [sendLoop_count]
    simp only [Nat.zero_add]
    rw [List.countP_eq_zero]
    intro r _
    rw [rowOutcome_unconfigured cfg tr hcfg r]
    simp
  · unfold Mian.send_all
    rw [sendLoop_loglen]
    simp

/-- Claim C4 witness: the amended behaviour at a concrete unconfigured
environment. -/
theorem send_all_missing_config_behavior_witness :
    (Mian.send_all Fx.cfgNone Fx.trAlways false 5 0 (fun _ => 0) (fun _ => 0)
        Fx.s4).1.leads = Fx.s4.leads :=
  (send_all_missing_config_behavior Fx.cfgNone Fx.trAlways 5 0 (fun _ => 0) (fun _ => 0)
    Fx.s4 (by decide)).1

/-- Claim C7: dispatcher failures are isolated per message.  For any
snapshot row (with distinct message ids and distinct owning-lead ids
across the snapshot): its outreach row is overwritten to SENT on success
and ERROR on failure (sent_at set, provider id from the outcome); its
owning lead moves to CONTACTED exactly on success and keeps its row
unchanged on failure; the loop completes the full snapshot (one logged
attempt per row, no abort); and the reported count is the number of
successes. -/
theorem send_all_failure_isolation (cfg : Mian.Config) (tr : Mian.Transport) (t : Nat)
    (t0 : Rat) (gap dur : Nat → Rat) (s : Mian.Store) (row : Mian.SendRow)
    (hrow : row ∈ Mian.draftSnapshot s)
    (hno : ((Mian.draftSnapshot s).map (fun r => r.oid)).Nodup)
    (hnl : ((Mian.draftSnapshot s).map (fun r => r.lid)).Nodup) :
    (∀ o ∈ s.outreach, o.id = row.oid →
      ({ o with
          status := if (Mian.rowOutcome cfg tr false row).1 then "SENT" else "ERROR",
          sent_at := some t,
          message_id := (Mian.rowOutcome cfg tr false row).2 } : Mian.OutreachRow) ∈
        (Mian.send_all cfg tr false t t0 gap dur s).1.outreach) ∧
    (∀ x ∈ s.leads, x.id = row.lid →
      (if (Mian.rowOutcome cfg tr false row).1 then
          ({ x with stage := "CONTACTED", updated_at := t } : Mian.LeadRow)
        else x) ∈ (Mian.send_all cfg tr false t t0 gap dur s).1.leads) ∧
    (Mian.send_all cfg tr false t t0 gap dur s).2.2.length =
      (Mian.draftSnapshot s).length ∧
    (Mian.send_all cfg tr false t t0 gap dur s).2.1 =
      List.countP (fun r => (Mian.rowOutcome cfg tr false r).1)
        (Mian.draftSnapshot s) := by
  refine ⟨?_, ?_, ?_, ?_⟩
  · intro o ho hoid
    unfold Mian.send_all
    rw [sendLoop_char]
    exact List.mem_map.mpr ⟨o, ho, foldMsg_eq t _ _ row hrow hno o hoid⟩
  · intro x hx hid
    unfold Mian.send_all
    rw [sendLoop_char]
    exact List.mem_map.mpr ⟨x, hx, foldLead_eq t _ _ row hrow hnl x hid⟩
  · unfold Mian.send_all
    rw [sendLoop_loglen]
    simp
  · unfold Mian.send_all
    rw [sendLoop_count]
    simp

/-- Claim C7 witness: isolation at a concrete two-message snapshot with
one forced-failure transport (the loop still attempts both rows). -/
theorem send_all_failure_isolation_witness :
    (Mian.send_all Fx.cfgFull Fx.trFailB false 5 0 (fun _ => 0) (fun _ => 0)
        Fx.s7).2.2.length = (Mian.draftSnapshot Fx.s7).length :=
  (send_all_failure_isolation Fx.cfgFull Fx.trFailB 5 0 (fun _ => 0) (fun _ => 0)
    Fx.s7 Fx.row7 (by decide) (by decide) (by decide)).2.2.1

theorem spaced_append (iv : Rat) :
    ∀ (l : List Mian.Attempt) (a : Mian.Attempt),
      Mian.Spaced iv l → (∀ x, l.getLast? = some x → x.ret + iv ≤ a.start) →
      Mian.Spaced iv (l ++ [a]) := by
  intro l
  induction l with
  | nil => intro a _ _; trivial
  | cons b bs ih =>
    intro a hsp hlast
    cases bs with
    | nil => exact ⟨hlast b rfl, trivial⟩
    | cons c cs =>
      obtain ⟨h1, h2⟩ := hsp
      exact ⟨h1, ih a h2 fun x hx => hlast x (by rw [List.getLast?_cons_cons]; exact hx)⟩

theorem sendLoop_spaced (cfg : Mian.Config) (tr : Mian.Transport) (t : Nat)
    (gap dur : Nat → Rat) :
    ∀ (rows : List Mian.SendRow) (s : Mian.Store) (sent : Nat) (clock last : Rat)
      (i : Nat) (log : List Mian.Attempt),
      Mian.Spaced (Mian.interval cfg) log →
      (∀ x, log.getLast? = some x → x.ret ≤ last) →
      Mian.Spaced (Mian.interval cfg)
        (Mian.sendLoop cfg tr false t gap dur rows s sent clock last i log).2.2 := by
  intro rows
  induction rows with
  | nil => intro s sent clock last i log hsp _; exact hsp
  | cons r rest ih =>
    intro s sent clock last i log hsp hlast
    simp only [Mian.sendLoop, Bool.false_eq_true, if_false]
    apply ih
    · apply spaced_append _ _ _ hsp
      intro x hx
      have hxr := hlast x hx
      by_cases hd : clock + gap i - last < Mian.interval cfg
      · rw [if_pos hd]
        have harith : clock + gap i + (Mian.interval cfg - (clock + gap i - last)) =
            last + Mian.interval cfg := by ring
        rw [harith]
        dsimp only
        linarith
      · rw [if_neg hd]
        push_neg at hd
        dsimp only
        linarith
    · intro x hx
      rw [List.getLast?_concat] at hx
      injection hx with hx
      subst hx
      by_cases hd : clock + gap i - last < Mian.interval cfg
      · rw [if_pos hd]
      · rw [if_neg hd]

/-- Claim C8: in non-dry-run mode the dispatcher never makes two
consecutive send attempts separated by less than `60 / maxRatePerMinute`
seconds, the spacing being measured from the instant the previous attempt
returned (`last_sent` is taken after `send_email` returns). -/
theorem send_all_rate_spacing (cfg : Mian.Config) (tr : Mian.Transport) (t : Nat)
    (t0 : Rat) (gap dur : Nat → Rat) (s : Mian.Store)
    (hrate : 1 ≤ cfg.smtp_rate_per_min) :
    Mian.Spaced (60 / (cfg.smtp_rate_per_min : Rat))
      ((Mian.send_all cfg tr false t t0 gap dur s).2.2) := by
  have hiv : Mian.interval cfg = 60 / (cfg.smtp_rate_per_min : Rat) := by
    unfold Mian.interval
    rw [max_eq_right hrate]
  rw [← hiv]
  apply sendLoop_spaced
  · trivial
  · intro x hx
    simp at hx

/-- Claim C8 witness: the spacing bound at a concrete configured run with
two DRAFT messages. -/
theorem send_all_rate_spacing_witness :
    Mian.Spaced (60 / (Fx.cfgFull.smtp_rate_per_min : Rat))
      ((Mian.send_all Fx.cfgFull Fx.trFailB false 5 0 (fun _ => 0) (fun _ => 0)
        Fx.s7).2.2) :=
  send_all_rate_spacing Fx.cfgFull Fx.trFailB 5 0 (fun _ => 0) (fun _ => 0) Fx.s7
    (by decide)
